import Mathlib

/-!
Verification of the TOTP core of the cf-worker-totp repository.

The repository contains two parallel TypeScript implementations of the
RFC 6238 TOTP engine:

* variant `V0` (the older `index.ts` embedding, `src/unnamed/part_000`,
  lines 60-180): HMAC-SHA-256, validates only the secret, performs no
  truncation bound check, and its `verifyTOTP` recomputes the step as
  `Math.floor((currentTime + t*period*1000) / (period*1000))`;
* variant `V1` (`utils.ts`, `src/unnamed/part_001`, lines 166-321):
  HMAC-SHA-1, validates secret / period / digits (and `T`), performs an
  explicit truncation bound check, and its `verifyTOTP` computes
  `currentT = Math.floor(currentTime / (period*1000))` once and then
  iterates `currentT + t`.

The embedding is shallow: JavaScript numbers on the paths the code uses
are integers, so they are modelled with `Nat`/`Int`; the 32-bit bitwise
operators (`& 0xFF`, `>>> 8`, `<< 8`, `|`, `& 0x7FFFFFFF`) are modelled
with explicit `% 2^32` / `% 256` / division arithmetic on the two's
complement bit pattern, which agrees with ECMAScript `ToUint32`/`ToInt32`
semantics for the operand ranges that occur.  The base32 decoder and the
HMAC primitive are external collaborators and are passed in as explicit
function parameters; exceptions are modelled with `Except String`.
-/

/-- ECMAScript `ToUint32` of an integer value: the unsigned 32-bit bit
pattern, as a `Nat`. -/
def jsToUint32 (x : Int) : Nat := (x % (4294967296 : Int)).toNat

/-- JavaScript `x & 0xFF` on an integer value: the low byte of the 32-bit
bit pattern. -/
def jsAnd255 (x : Int) : Nat := jsToUint32 x % 256

/-- JavaScript `x >>> 8` on an integer value: unsigned 32-bit right shift. -/
def jsShrU8 (x : Int) : Int := (jsToUint32 x / 256 : Nat)

/-- The counter-encoding loop of the source
(`for (let i = 7; i >= 0; i--) { TBytes[i] = tempT & 0xFF; tempT = tempT >>> 8; }`):
`encodeStepAux k t` is the list `TBytes[8-k .. 7]` produced from the
running value `t`.  The byte stored at the highest remaining index is the
low byte of `t`; the loop then continues with `t >>> 8`. -/
def encodeStepAux : Nat → Int → List Nat
  | 0, _ => []
  | k + 1, t => encodeStepAux k (jsShrU8 t) ++ [jsAnd255 t]

/-- The 8-byte counter encoding the source builds from the time step `T`
(`TBytes` in `generateTOTP` / `generateTOTPWithT`, both variants). -/
def encodeStep (T : Int) : List Nat := encodeStepAux 8 T

/-- Reference definition, following the spec: the true unsigned 64-bit
big-endian byte encoding of a step value (network byte order, high byte
first). -/
def be64 (T : Nat) : List Nat :=
  [T / 2 ^ 56 % 256, T / 2 ^ 48 % 256, T / 2 ^ 40 % 256, T / 2 ^ 32 % 256,
   T / 2 ^ 24 % 256, T / 2 ^ 16 % 256, T / 2 ^ 8 % 256, T % 256]

/-- The dynamic-truncation read loop of the source
(`truncated = (truncated << 8) | hmacArray[offset + i]` for `i = 0..3`).
JavaScript `<<`/`|` operate on the 32-bit bit pattern, and an
out-of-bounds `Uint8Array` read yields `undefined`, which `|` coerces to
`0`; both are reflected here (`% 2^32`, `List.getD _ _ 0`). -/
def readBE4 (mac : List Nat) (offset : Nat) : Nat :=
  (List.range 4).foldl (fun t i => (t * 256 + mac.getD (offset + i) 0) % 4294967296) 0

/-- Reference definition, following the spec: the big-endian `uint32`
formed from the four MAC bytes starting at `offset`. -/
def beUint32 (mac : List Nat) (offset : Nat) : Nat :=
  mac.getD offset 0 * 2 ^ 24 + mac.getD (offset + 1) 0 * 2 ^ 16 +
    mac.getD (offset + 2) 0 * 2 ^ 8 + mac.getD (offset + 3) 0

deriving instance DecidableEq for Except

/-- Decimal digit conversion with structural fuel: correct whenever
`n ≤ fuel` (the fuel-0 case is reached only for `n = 0`, by the
invariant that each division by ten consumes at most one unit of fuel). -/
def natDigitsAux : Nat → Nat → List Char
  | 0, n => [Char.ofNat (48 + n % 10)]
  | fuel + 1, n =>
    if n < 10 then [Char.ofNat (48 + n)]
    else natDigitsAux fuel (n / 10) ++ [Char.ofNat (48 + n % 10)]

/-- Decimal digit list of a natural number, most significant first; the
model of JavaScript `Number.prototype.toString()` for the non-negative
integers produced by the OTP arithmetic. -/
def natDigits (n : Nat) : List Char := natDigitsAux n n

/-- Decimal string of a natural number (`otp.toString()` in the source). -/
def natToString (n : Nat) : String := String.mk (natDigits n)

/-- JavaScript `s.padStart(d, c)`: left-pad `s` with `c` to length `d`
(a no-op when `s` is already at least that long, since `d - s.length = 0`
in truncated subtraction). -/
def padStart (s : String) (d : Nat) (c : Char) : String :=
  String.mk (List.replicate (d - s.length) c) ++ s

/-- The offsets visited by the verification loop
(`for (let t = -window; t <= window; t++)`), in iteration order. -/
def offsetList (window : Nat) : List Int :=
  (List.range (2 * window + 1)).map (fun i : Nat => (i : Int) - window)

/-- The body of the verification loop, both variants: generate the code
for each offset in turn, return `true` on the first exact string match,
`false` if the list is exhausted; a raised error aborts the loop. -/
def verifyLoop (gen : Int → Except String String) (userInput : String) :
    List Int → Except String Bool
  | [] => .ok false
  | t :: ts =>
    match gen t with
    | .error e => .error e
    | .ok code => if code = userInput then .ok true else verifyLoop gen userInput ts

/-- Step form (a), `utils.ts` lines 248-250: compute
`currentT = Math.floor(currentTime / (period * 1000))` once, then add the
integer offset. -/
def stepFormA (now : Int) (period : Nat) (t : Int) : Int :=
  Int.fdiv now ((period : Int) * 1000) + t

/-- Step form (b), the older variant, `part_000` line 122:
`Math.floor((currentTime + t * period * 1000) / (period * 1000))`. -/
def stepFormB (now : Int) (period : Nat) (t : Int) : Int :=
  Int.fdiv (now + t * ((period : Int) * 1000)) ((period : Int) * 1000)

namespace V1

/-- The `try` block of `generateTOTPWithT` (`utils.ts` lines 269-316):
input validation, base32 decode, counter encoding, HMAC, bound-checked
dynamic truncation, masking, modulo reduction and zero-padding.  The
`typeof T !== 'number' || isNaN(T)` check is vacuous in the model since
`T : Int` is always a number.  Errors carry the message of the
JavaScript exception thrown at the corresponding point. -/
def generateTOTPWithTAux (hmac : List Nat → List Nat → List Nat)
    (b32 : String → Except String (List Nat))
    (secret : String) (T : Int) (period digits : Nat) : Except String String :=
  if secret.isEmpty then .error "Invalid secret: must be a non-empty string"
  else if period = 0 then .error "Invalid period: must be a positive number"
  else if digits = 0 then .error "Invalid digits: must be a positive integer"
  else
    match b32 secret with
    | .error e => .error e
    | .ok key =>
      let mac := hmac key (encodeStep T)
      let offset := mac.getLastD 0 % 16
      if offset + 3 < mac.length then
        let otp := readBE4 mac offset % 2 ^ 31 % 10 ^ digits
        .ok (padStart (natToString otp) digits (Char.ofNat 48))
      else .error "HMAC array too small for truncation"

/-- `generateTOTPWithT` (`utils.ts` lines 269-321): the `try` block with
its `catch`, which rethrows every failure as the uniform
`Failed to generate TOTP` error. -/
def generateTOTPWithT (hmac : List Nat → List Nat → List Nat)
    (b32 : String → Except String (List Nat))
    (secret : String) (T : Int) (period digits : Nat) : Except String String :=
  match generateTOTPWithTAux hmac b32 secret T period digits with
  | .ok c => .ok c
  | .error _ => .error "Failed to generate TOTP"

/-- The `try` block of `generateTOTP` (`utils.ts` lines 166-211): same
pipeline, but the step is derived from the current time
(`T = Math.floor(Date.now() / (period * 1000))`); the wall clock `now`
(milliseconds since epoch) is passed in explicitly. -/
def generateTOTPAux (hmac : List Nat → List Nat → List Nat)
    (b32 : String → Except String (List Nat))
    (secret : String) (now : Nat) (period digits : Nat) : Except String String :=
  if secret.isEmpty then .error "Invalid secret: must be a non-empty string"
  else if period = 0 then .error "Invalid period: must be a positive number"
  else if digits = 0 then .error "Invalid digits: must be a positive integer"
  else
    match b32 secret with
    | .error e => .error e
    | .ok key =>
      let T : Int := (now / (period * 1000) : Nat)
      let mac := hmac key (encodeStep T)
      let offset := mac.getLastD 0 % 16
      if offset + 3 < mac.length then
        let otp := readBE4 mac offset % 2 ^ 31 % 10 ^ digits
        .ok (padStart (natToString otp) digits (Char.ofNat 48))
      else .error "HMAC array too small for truncation"

/-- `generateTOTP` (`utils.ts` lines 166-216): `try` block plus the
uniform `catch` wrapper. -/
def generateTOTP (hmac : List Nat → List Nat → List Nat)
    (b32 : String → Except String (List Nat))
    (secret : String) (now : Nat) (period digits : Nat) : Except String String :=
  match generateTOTPAux hmac b32 secret now period digits with
  | .ok c => .ok c
  | .error _ => .error "Failed to generate TOTP"

/-- The `try` block of `verifyTOTP` (`utils.ts` lines 227-254):
validation, a single computation of `currentT`, then the window loop over
offsets `-window .. window` calling `generateTOTPWithT` at
`currentT + t`. -/
def verifyAux (hmac : List Nat → List Nat → List Nat)
    (b32 : String → Except String (List Nat))
    (secret userInput : String) (now : Nat) (period digits window : Nat) :
    Except String Bool :=
  if secret.isEmpty then .error "Invalid secret: must be a non-empty string"
  else if period = 0 then .error "Invalid period: must be a positive number"
  else if digits = 0 then .error "Invalid digits: must be a positive integer"
  else if userInput.isEmpty then .error "Invalid OTP: must be a non-empty string"
  else
    let currentT : Int := (now / (period * 1000) : Nat)
    verifyLoop (fun t => generateTOTPWithT hmac b32 secret (currentT + t) period digits)
      userInput (offsetList window)

/-- `verifyTOTP` (`utils.ts` lines 227-259): the `try` block with its
`catch`, which converts every raised error into the result `false`. -/
def verifyTOTP (hmac : List Nat → List Nat → List Nat)
    (b32 : String → Except String (List Nat))
    (secret userInput : String) (now : Nat) (period digits window : Nat) : Bool :=
  match verifyAux hmac b32 secret userInput now period digits window with
  | .ok b => b
  | .error _ => false

end V1

namespace V0

/-- The `try` block of the older variant's `generateTOTPWithT`
(`part_000` lines 141-175): only the secret (and `T` being a number) is
validated; the dynamic truncation performs no bound check, so an
out-of-bounds MAC read is coerced to zero bits exactly as JavaScript
coerces `undefined` under `|`. -/
def generateTOTPWithTAux (hmac : List Nat → List Nat → List Nat)
    (b32 : String → Except String (List Nat))
    (secret : String) (T : Int) (period digits : Nat) : Except String String :=
  if secret.isEmpty then .error "Invalid secret: must be a non-empty string"
  else
    match b32 secret with
    | .error e => .error e
    | .ok key =>
      let _ := period
      let mac := hmac key (encodeStep T)
      let offset := mac.getLastD 0 % 16
      let otp := readBE4 mac offset % 2 ^ 31 % 10 ^ digits
      .ok (padStart (natToString otp) digits (Char.ofNat 48))

/-- The older variant's `generateTOTPWithT` (`part_000` lines 141-180):
`try` block plus uniform `catch` wrapper. -/
def generateTOTPWithT (hmac : List Nat → List Nat → List Nat)
    (b32 : String → Except String (List Nat))
    (secret : String) (T : Int) (period digits : Nat) : Except String String :=
  match generateTOTPWithTAux hmac b32 secret T period digits with
  | .ok c => .ok c
  | .error _ => .error "Failed to generate TOTP"

/-- The `try` block of the older variant's `generateTOTP` (`part_000`
lines 60-92): only the secret is validated; no truncation bound check. -/
def generateTOTPAux (hmac : List Nat → List Nat → List Nat)
    (b32 : String → Except String (List Nat))
    (secret : String) (now : Nat) (period digits : Nat) : Except String String :=
  if secret.isEmpty then .error "Invalid secret: must be a non-empty string"
  else
    match b32 secret with
    | .error e => .error e
    | .ok key =>
      let T : Int := (now / (period * 1000) : Nat)
      let mac := hmac key (encodeStep T)
      let offset := mac.getLastD 0 % 16
      let otp := readBE4 mac offset % 2 ^ 31 % 10 ^ digits
      .ok (padStart (natToString otp) digits (Char.ofNat 48))

/-- The older variant's `generateTOTP` (`part_000` lines 60-97). -/
def generateTOTP (hmac : List Nat → List Nat → List Nat)
    (b32 : String → Except String (List Nat))
    (secret : String) (now : Nat) (period digits : Nat) : Except String String :=
  match generateTOTPAux hmac b32 secret now period digits with
  | .ok c => .ok c
  | .error _ => .error "Failed to generate TOTP"

/-- The `try` block of the older variant's `verifyTOTP` (`part_000`
lines 108-126): validates secret and candidate, then for each offset
recomputes the step as
`Math.floor((currentTime + t*period*1000) / (period*1000))`
(step form (b)). -/
def verifyAux (hmac : List Nat → List Nat → List Nat)
    (b32 : String → Except String (List Nat))
    (secret userInput : String) (now : Nat) (period digits window : Nat) :
    Except String Bool :=
  if secret.isEmpty then .error "Invalid secret: must be a non-empty string"
  else if userInput.isEmpty then .error "Invalid OTP: must be a non-empty string"
  else
    verifyLoop (fun t => generateTOTPWithT hmac b32 secret (stepFormB now period t) period digits)
      userInput (offsetList window)

/-- The older variant's `verifyTOTP` (`part_000` lines 108-131): the
`try` block with its `catch`, which converts every raised error into the
result `false`. -/
def verifyTOTP (hmac : List Nat → List Nat → List Nat)
    (b32 : String → Except String (List Nat))
    (secret userInput : String) (now : Nat) (period digits window : Nat) : Bool :=
  match verifyAux hmac b32 secret userInput now period digits window with
  | .ok b => b
  | .error _ => false

end V0

/-- Stub hash returning a single zero byte, used to exercise the
truncation bound check (the spec itself suggests simulating a short MAC
via a stub hash). -/
def stubHash1 : List Nat → List Nat → List Nat := fun _ _ => [0]

/-- Stub hash returning twenty zero bytes (the length of an HMAC-SHA-1
MAC). -/
def stubHash20 : List Nat → List Nat → List Nat := fun _ _ => List.replicate 20 0

/-- Stub hash that depends on the hashed message: the 8-byte counter
concatenated with itself three times (24 bytes, enough for truncation). -/
def stubHashCat : List Nat → List Nat → List Nat := fun _ data => data ++ data ++ data

/-- Stub base32 decoder that always succeeds with a fixed one-byte key. -/
def dec1 : String → Except String (List Nat) := fun _ => .ok [1]

lemma jsToUint32_lt (x : Int) : jsToUint32 x < 4294967296 := by
  unfold jsToUint32; omega

lemma jsToUint32_natCast (m : Nat) : jsToUint32 (m : Int) = m % 4294967296 := by
  unfold jsToUint32; omega

/-- Closed form of the counter-encoding loop: it produces the big-endian
bytes of the unsigned 32-bit bit pattern of `T`, preceded by four zero
bytes — i.e. the 64-bit big-endian encoding of `ToUint32(T)`, because the
JavaScript `>>>` operator works on 32 bits. -/
lemma encodeStep_eq (T : Int) : encodeStep T = be64 (jsToUint32 T) := by
  have hu := jsToUint32_lt T
  show encodeStepAux 8 T = be64 (jsToUint32 T)
  simp only [encodeStepAux, jsShrU8, jsAnd255, jsToUint32_natCast, be64,
    List.nil_append, List.cons_append, List.append_assoc, List.singleton_append]
  norm_num
  omega

lemma getD_lt_256 (mac : List Nat) (hb : ∀ b ∈ mac, b < 256) (i : Nat) :
    mac.getD i 0 < 256 := by
  rcases Nat.lt_or_ge i mac.length with h | h
  · rw [List.getD_eq_getElem mac 0 h]
    exact hb _ (List.getElem_mem h)
  · rw [List.getD_eq_default mac 0 h]
    omega

/-- Closed form of the truncation read loop: with byte-valued entries the
32-bit wrap-around never fires, and the loop computes exactly the
big-endian `uint32` at `offset`. -/
lemma readBE4_eq (mac : List Nat) (offset : Nat) (hb : ∀ b ∈ mac, b < 256) :
    readBE4 mac offset = beUint32 mac offset := by
  have h0 := getD_lt_256 mac hb offset
  have h1 := getD_lt_256 mac hb (offset + 1)
  have h2 := getD_lt_256 mac hb (offset + 2)
  have h3 := getD_lt_256 mac hb (offset + 3)
  have hr : List.range 4 = [0, 1, 2, 3] := rfl
  simp only [List.getD_eq_getElem?_getD] at h0 h1 h2 h3
  simp only [readBE4, beUint32, hr, List.foldl, Nat.add_zero, List.getD_eq_getElem?_getD]
  norm_num
  omega

lemma digitChar_isDigit : ∀ r : Nat, r < 10 → (Char.ofNat (48 + r)).isDigit = true := by
  decide

lemma natDigitsAux_isDigit (fuel : Nat) : ∀ n c, c ∈ natDigitsAux fuel n → c.isDigit = true := by
  induction fuel with
  | zero =>
    intro n c hc
    simp only [natDigitsAux, List.mem_singleton] at hc
    subst hc
    exact digitChar_isDigit _ (Nat.mod_lt _ (by omega))
  | succ fuel ih =>
    intro n c hc
    simp only [natDigitsAux] at hc
    split at hc
    · simp only [List.mem_singleton] at hc
      subst hc
      exact digitChar_isDigit _ (by omega)
    · rcases List.mem_append.1 hc with h | h
      · exact ih _ _ h
      · simp only [List.mem_singleton] at h
        subst h
        exact digitChar_isDigit _ (Nat.mod_lt _ (by omega))

lemma natDigitsAux_length (fuel : Nat) : ∀ d n, n ≤ fuel → 0 < d → n < 10 ^ d →
    (natDigitsAux fuel n).length ≤ d := by
  induction fuel with
  | zero =>
    intro d n hn hd _
    simp only [natDigitsAux, List.length_singleton]
    omega
  | succ fuel ih =>
    intro d n hn hd hpow
    simp only [natDigitsAux]
    split
    · simp only [List.length_singleton]
      omega
    · rename_i hge
      obtain ⟨e, rfl⟩ : ∃ e, d = e + 1 := ⟨d - 1, by omega⟩
      have he : 0 < e := by
        rcases Nat.eq_zero_or_pos e with rfl | h
        · simp at hpow; omega
        · exact h
      have hdiv : n / 10 < 10 ^ e := by
        have hp : (10 : Nat) ^ (e + 1) = 10 ^ e * 10 := by ring
        omega
      have hfuel : n / 10 ≤ fuel := by omega
      have hIH := ih e (n / 10) hfuel he hdiv
      have hsplit : (natDigitsAux fuel (n / 10) ++ [Char.ofNat (48 + n % 10)]).length
          = (natDigitsAux fuel (n / 10)).length + 1 := by
        simp
      omega

lemma natDigits_isDigit (n : Nat) : ∀ c ∈ natDigits n, c.isDigit = true :=
  fun c hc => natDigitsAux_isDigit n n c hc

lemma natDigits_length (n d : Nat) (hd : 0 < d) (hn : n < 10 ^ d) :
    (natDigits n).length ≤ d :=
  natDigitsAux_length n d n (Nat.le_refl n) hd hn

lemma padStart_length (s : String) (d : Nat) (c : Char) (h : s.length ≤ d) :
    (padStart s d c).length = d := by
  simp only [padStart, String.length_append, String.length_mk, List.length_replicate]
  omega

lemma padStart_data (s : String) (d : Nat) (c : Char) :
    (padStart s d c).data = List.replicate (d - s.length) c ++ s.data := by
  simp [padStart, String.data_append]

/-- The shape every successfully generated code has: the zero-padded
decimal string of some value below `10 ^ digits`; it has exactly `digits`
characters, all decimal digits. -/
lemma padCode_facts (n digits : Nat) (hd : 0 < digits) (hn : n < 10 ^ digits) :
    (padStart (natToString n) digits (Char.ofNat 48)).length = digits ∧
    (∀ ch ∈ (padStart (natToString n) digits (Char.ofNat 48)).data, ch.isDigit = true) ∧
    ∃ m, m < 10 ^ digits ∧
      padStart (natToString n) digits (Char.ofNat 48) = padStart (natToString m) digits (Char.ofNat 48) := by
  have hlen : (natToString n).length ≤ digits := by
    simpa [natToString, String.length_mk] using natDigits_length n digits hd hn
  refine ⟨padStart_length _ _ _ hlen, ?_, n, hn, rfl⟩
  intro ch hch
  rw [padStart_data] at hch
  rcases List.mem_append.1 hch with h | h
  · rw [List.eq_of_mem_replicate h]
    exact digitChar_isDigit 0 (by omega)
  · exact natDigits_isDigit n ch h

lemma offsetList_length (w : Nat) : (offsetList w).length = 2 * w + 1 := by
  rw [offsetList, List.length_map, List.length_range]

lemma mem_offsetList (w : Nat) (t : Int) : t ∈ offsetList w ↔ -(w : Int) ≤ t ∧ t ≤ w := by
  constructor
  · intro ht
    obtain ⟨i, hi, hit⟩ := List.mem_map.1 ht
    have hi2 := List.mem_range.1 hi
    have hit2 : (i : Int) - w = t := hit
    omega
  · rintro ⟨h1, h2⟩
    refine List.mem_map.2 ⟨(t + w).toNat, List.mem_range.2 (by omega), ?_⟩
    show ((t + w).toNat : Int) - w = t
    omega

/-- When every generation in the window succeeds, the verification loop
itself succeeds, and yields `true` exactly when some visited offset
produces the candidate. -/
lemma verifyLoop_all_ok (gen : Int → Except String String) (u : String) (l : List Int)
    (h : ∀ t ∈ l, ∃ c, gen t = .ok c) :
    (∃ b, verifyLoop gen u l = .ok b) ∧
    (verifyLoop gen u l = .ok true ↔ ∃ t ∈ l, gen t = .ok u) := by
  induction l with
  | nil => simp [verifyLoop]
  | cons t ts ih =>
    obtain ⟨c, hc⟩ := h t (List.mem_cons_self t ts)
    obtain ⟨hex, hiff⟩ := ih (fun t ht => h t (List.mem_cons_of_mem _ ht))
    by_cases hcu : c = u
    · subst hcu
      refine ⟨⟨true, ?_⟩, ?_, fun _ => ?_⟩
      · simp [verifyLoop, hc]
      · intro _
        exact ⟨t, List.mem_cons_self t ts, hc⟩
      · simp [verifyLoop, hc]
    · have hstep : verifyLoop gen u (t :: ts) = verifyLoop gen u ts := by
        simp [verifyLoop, hc, hcu]
      rw [hstep]
      refine ⟨hex, hiff.trans ?_⟩
      constructor
      · rintro ⟨s, hs, hgs⟩
        exact ⟨s, List.mem_cons_of_mem _ hs, hgs⟩
      · rintro ⟨s, hs, hgs⟩
        rcases List.mem_cons.1 hs with rfl | hs
        · rw [hc] at hgs
          exact absurd (by injection hgs) hcu
        · exact ⟨s, hs, hgs⟩

/-- Validation and bound-check hypotheses make `generateTOTPWithTAux`
succeed, with the code determined by the MAC of the encoded counter. -/
lemma genWithTAux_ok (hmac : List Nat → List Nat → List Nat)
    (b32 : String → Except String (List Nat)) (secret : String) (T : Int)
    (period digits : Nat) (key : List Nat)
    (hs : secret.isEmpty = false) (hp : period ≠ 0) (hd : digits ≠ 0)
    (hb : b32 secret = .ok key)
    (hbound : (hmac key (encodeStep T)).getLastD 0 % 16 + 3 < (hmac key (encodeStep T)).length) :
    V1.generateTOTPWithTAux hmac b32 secret T period digits
      = .ok (padStart (natToString (readBE4 (hmac key (encodeStep T))
          ((hmac key (encodeStep T)).getLastD 0 % 16) % 2 ^ 31 % 10 ^ digits))
          digits (Char.ofNat 48)) := by
  unfold V1.generateTOTPWithTAux
  rw [hs, hb]
  simp only [Bool.false_eq_true, if_false, if_neg hp, if_neg hd, if_pos hbound]

/-- Same fact for the public wrapper. -/
lemma genWithT_ok (hmac : List Nat → List Nat → List Nat)
    (b32 : String → Except String (List Nat)) (secret : String) (T : Int)
    (period digits : Nat) (key : List Nat)
    (hs : secret.isEmpty = false) (hp : period ≠ 0) (hd : digits ≠ 0)
    (hb : b32 secret = .ok key)
    (hbound : (hmac key (encodeStep T)).getLastD 0 % 16 + 3 < (hmac key (encodeStep T)).length) :
    V1.generateTOTPWithT hmac b32 secret T period digits
      = .ok (padStart (natToString (readBE4 (hmac key (encodeStep T))
          ((hmac key (encodeStep T)).getLastD 0 % 16) % 2 ^ 31 % 10 ^ digits))
          digits (Char.ofNat 48)) := by
  unfold V1.generateTOTPWithT
  rw [genWithTAux_ok hmac b32 secret T period digits key hs hp hd hb hbound]

lemma v1_withT_ok_iff (hmac : List Nat → List Nat → List Nat)
    (b32 : String → Except String (List Nat)) (secret : String) (T : Int)
    (period digits : Nat) (c : String) :
    V1.generateTOTPWithT hmac b32 secret T period digits = .ok c ↔
      V1.generateTOTPWithTAux hmac b32 secret T period digits = .ok c := by
  unfold V1.generateTOTPWithT
  cases h : V1.generateTOTPWithTAux hmac b32 secret T period digits <;> simp

lemma v1_gen_ok_iff (hmac : List Nat → List Nat → List Nat)
    (b32 : String → Except String (List Nat)) (secret : String)
    (now period digits : Nat) (c : String) :
    V1.generateTOTP hmac b32 secret now period digits = .ok c ↔
      V1.generateTOTPAux hmac b32 secret now period digits = .ok c := by
  unfold V1.generateTOTP
  cases h : V1.generateTOTPAux hmac b32 secret now period digits <;> simp

lemma v0_withT_ok_iff (hmac : List Nat → List Nat → List Nat)
    (b32 : String → Except String (List Nat)) (secret : String) (T : Int)
    (period digits : Nat) (c : String) :
    V0.generateTOTPWithT hmac b32 secret T period digits = .ok c ↔
      V0.generateTOTPWithTAux hmac b32 secret T period digits = .ok c := by
  unfold V0.generateTOTPWithT
  cases h : V0.generateTOTPWithTAux hmac b32 secret T period digits <;> simp

lemma v0_gen_ok_iff (hmac : List Nat → List Nat → List Nat)
    (b32 : String → Except String (List Nat)) (secret : String)
    (now period digits : Nat) (c : String) :
    V0.generateTOTP hmac b32 secret now period digits = .ok c ↔
      V0.generateTOTPAux hmac b32 secret now period digits = .ok c := by
  unfold V0.generateTOTP
  cases h : V0.generateTOTPAux hmac b32 secret now period digits <;> simp

lemma v1_verify_true_iff (hmac : List Nat → List Nat → List Nat)
    (b32 : String → Except String (List Nat)) (secret userInput : String)
    (now period digits window : Nat) :
    V1.verifyTOTP hmac b32 secret userInput now period digits window = true ↔
      V1.verifyAux hmac b32 secret userInput now period digits window = .ok true := by
  unfold V1.verifyTOTP
  cases h : V1.verifyAux hmac b32 secret userInput now period digits window <;> simp

/-- C1: `verifyTOTP` (in both variants) always returns one of the two
booleans, and the `catch` converts every error raised inside the `try`
block — malformed secret, base32 decode failure, hash failure, malformed
candidate, truncation failure — into the result `false`; a completed
window search with no match also yields `false`.  In the embedding the
functions are total with result type `Bool`, so no exception can
propagate. -/
theorem c1_verify_never_raises (hmac : List Nat → List Nat → List Nat)
    (b32 : String → Except String (List Nat)) (secret userInput : String)
    (now period digits window : Nat) :
    (V1.verifyTOTP hmac b32 secret userInput now period digits window = true ∨
     V1.verifyTOTP hmac b32 secret userInput now period digits window = false) ∧
    (∀ e, V1.verifyAux hmac b32 secret userInput now period digits window = .error e →
      V1.verifyTOTP hmac b32 secret userInput now period digits window = false) ∧
    (V1.verifyAux hmac b32 secret userInput now period digits window = .ok false →
      V1.verifyTOTP hmac b32 secret userInput now period digits window = false) ∧
    (V0.verifyTOTP hmac b32 secret userInput now period digits window = true ∨
     V0.verifyTOTP hmac b32 secret userInput now period digits window = false) ∧
    (∀ e, V0.verifyAux hmac b32 secret userInput now period digits window = .error e →
      V0.verifyTOTP hmac b32 secret userInput now period digits window = false) ∧
    (V0.verifyAux hmac b32 secret userInput now period digits window = .ok false →
      V0.verifyTOTP hmac b32 secret userInput now period digits window = false) := by
  refine ⟨Bool.eq_false_or_eq_true _, fun e he => ?_, fun hf => ?_,
    Bool.eq_false_or_eq_true _, fun e he => ?_, fun hf => ?_⟩
  · unfold V1.verifyTOTP
    rw [he]
  · unfold V1.verifyTOTP
    rw [hf]
  · unfold V0.verifyTOTP
    rw [he]
  · unfold V0.verifyTOTP
    rw [hf]

/-- Witness for C1: with an empty secret the `try` block raises, and both
variants report `false`. -/
theorem c1_witness :
    V1.verifyTOTP stubHash20 dec1 "" "123456" 1672531200000 30 6 1 = false ∧
    V0.verifyTOTP stubHash20 dec1 "" "123456" 1672531200000 30 6 1 = false :=
  ⟨(c1_verify_never_raises stubHash20 dec1 "" "123456" 1672531200000 30 6 1).2.1
      "Invalid secret: must be a non-empty string" (by decide),
   (c1_verify_never_raises stubHash20 dec1 "" "123456" 1672531200000 30 6 1).2.2.2.2.1
      "Invalid secret: must be a non-empty string" (by decide)⟩

/-- C2 (amended): in the `utils.ts` implementation (`V1`) the truncation
bound check is performed on every generation, before the four MAC bytes
are read: whenever `offset + 4 > length(mac)` the generation fails (the
inner error is the truncation error, rethrown by the `catch` as the
uniform generation failure), so no out-of-bounds read occurs.  The older
variant (`V0`) performs no such check — see the counterexample. -/
theorem c2_truncation_check (hmac : List Nat → List Nat → List Nat)
    (b32 : String → Except String (List Nat)) (secret : String) (T : Int)
    (period digits : Nat) (key : List Nat)
    (hs : secret.isEmpty = false) (hp : period ≠ 0) (hd : digits ≠ 0)
    (hb : b32 secret = .ok key)
    (hshort : (hmac key (encodeStep T)).getLastD 0 % 16 + 4 > (hmac key (encodeStep T)).length) :
    V1.generateTOTPWithTAux hmac b32 secret T period digits
      = .error "HMAC array too small for truncation" ∧
    V1.generateTOTPWithT hmac b32 secret T period digits
      = .error "Failed to generate TOTP" := by
  have haux : V1.generateTOTPWithTAux hmac b32 secret T period digits
      = .error "HMAC array too small for truncation" := by
    unfold V1.generateTOTPWithTAux
    rw [hs, hb]
    simp only [Bool.false_eq_true, if_false, if_neg hp, if_neg hd, if_neg (by omega :
      ¬ (hmac key (encodeStep T)).getLastD 0 % 16 + 3 < (hmac key (encodeStep T)).length)]
  refine ⟨haux, ?_⟩
  unfold V1.generateTOTPWithT
  rw [haux]

/-- Witness for C2: a stub single-byte MAC trips the check in `V1`. -/
theorem c2_witness :
    V1.generateTOTPWithTAux stubHash1 dec1 "AA" 0 30 6
      = .error "HMAC array too small for truncation" ∧
    V1.generateTOTPWithT stubHash1 dec1 "AA" 0 30 6
      = .error "Failed to generate TOTP" :=
  c2_truncation_check stubHash1 dec1 "AA" 0 30 6 [1]
    (by decide) (by decide) (by decide) (by decide) (by decide)

/-- Counterexample for C2 as stated: the older variant's
`generateTOTPWithT` performs no bound check.  With a stub one-byte MAC
(`offset = 0`, `offset + 4 > 1`) it does not fail: the out-of-bounds
reads are coerced to zero bits (JavaScript `x | undefined`) and the call
returns the code `"000000"`. -/
theorem c2_counterexample :
    ([0] : List Nat).getLastD 0 % 16 + 4 > ([0] : List Nat).length ∧
    stubHash1 [1] (encodeStep 0) = [0] ∧
    V0.generateTOTPWithT stubHash1 dec1 "AA" 0 30 6 = .ok "000000" :=
  ⟨by decide, rfl, by decide⟩

lemma stepForm_eq (now : Int) (period : Nat) (t : Int) (hp : 0 < period) :
    stepFormB now period t = stepFormA now period t := by
  unfold stepFormA stepFormB
  have hP : (0 : Int) < (period : Int) * 1000 := by
    have : (1 : Int) ≤ (period : Int) := by exact_mod_cast hp
    omega
  rw [Int.fdiv_eq_ediv _ (le_of_lt hP), Int.fdiv_eq_ediv _ (le_of_lt hP)]
  exact Int.add_mul_ediv_right now t (ne_of_gt hP)

lemma v0_genWithT_ok (hmac : List Nat → List Nat → List Nat)
    (b32 : String → Except String (List Nat)) (secret : String) (T : Int)
    (period digits : Nat) (key : List Nat)
    (hs : secret.isEmpty = false) (hb : b32 secret = .ok key) :
    V0.generateTOTPWithT hmac b32 secret T period digits
      = .ok (padStart (natToString (readBE4 (hmac key (encodeStep T))
          ((hmac key (encodeStep T)).getLastD 0 % 16) % 2 ^ 31 % 10 ^ digits))
          digits (Char.ofNat 48)) := by
  have haux : V0.generateTOTPWithTAux hmac b32 secret T period digits
      = .ok (padStart (natToString (readBE4 (hmac key (encodeStep T))
          ((hmac key (encodeStep T)).getLastD 0 % 16) % 2 ^ 31 % 10 ^ digits))
          digits (Char.ofNat 48)) := by
    unfold V0.generateTOTPWithTAux
    rw [hs, hb]
    rfl
  unfold V0.generateTOTPWithT
  rw [haux]

lemma v0_verify_true_iff (hmac : List Nat → List Nat → List Nat)
    (b32 : String → Except String (List Nat)) (secret userInput : String)
    (now period digits window : Nat) :
    V0.verifyTOTP hmac b32 secret userInput now period digits window = true ↔
      V0.verifyAux hmac b32 secret userInput now period digits window = .ok true := by
  unfold V0.verifyTOTP
  cases h : V0.verifyAux hmac b32 secret userInput now period digits window <;> simp

/-- The older variant recomputes the step for every offset as
`floor((now + t*period*1000) / (period*1000))`, but that value provably
equals the once-computed current step plus the integer offset. -/
lemma stepFormB_natCast (now period : Nat) (t : Int) (hp : period ≠ 0) :
    stepFormB (now : Int) period t = ((now / (period * 1000) : Nat) : Int) + t := by
  rw [stepForm_eq (now : Int) period t (by omega)]
  unfold stepFormA
  congr 1
  have hP : (0 : Int) ≤ (period : Int) * 1000 := by
    have : (0 : Int) ≤ (period : Int) := Int.ofNat_nonneg period
    omega
  rw [Int.fdiv_eq_ediv _ hP]
  rw [show ((period : Int) * 1000) = ((period * 1000 : Nat) : Int) by push_cast; ring]
  exact (Int.ofNat_div now (period * 1000)).symm

/-- C3: with valid inputs (non-empty secret and candidate, positive
period and digits, a secret that decodes, and a MAC primitive producing
MACs of the usual length), `verifyTOTP` in both variants examines
exactly the `2*window + 1` offsets `-window .. window` around the
current step of `now`, and returns `true` exactly when some offset in
that window generates a code that is string-equal to the candidate.
The `utils.ts` variant computes the current step once and adds the
offset; the older variant recomputes
`floor((now + t*period*1000) / (period*1000))` per offset, but the
third conjunct shows every recomputation equals the once-computed
current step plus the offset, so both variants check exactly the steps
the claim describes. -/
theorem c3_window_semantics (hmac : List Nat → List Nat → List Nat)
    (b32 : String → Except String (List Nat)) (secret userInput : String)
    (now period digits window : Nat) (key : List Nat)
    (hs : secret.isEmpty = false) (hu : userInput.isEmpty = false)
    (hp : period ≠ 0) (hd : digits ≠ 0) (hb : b32 secret = .ok key)
    (hlen : ∀ msg, 19 ≤ (hmac key msg).length) :
    (offsetList window).length = 2 * window + 1 ∧
    (V1.verifyTOTP hmac b32 secret userInput now period digits window = true ↔
      ∃ t : Int, -(window : Int) ≤ t ∧ t ≤ window ∧
        V1.generateTOTPWithT hmac b32 secret (((now / (period * 1000) : Nat) : Int) + t)
          period digits = .ok userInput) ∧
    (∀ t : Int, stepFormB (now : Int) period t
        = ((now / (period * 1000) : Nat) : Int) + t) ∧
    (V0.verifyTOTP hmac b32 secret userInput now period digits window = true ↔
      ∃ t : Int, -(window : Int) ≤ t ∧ t ≤ window ∧
        V0.generateTOTPWithT hmac b32 secret (((now / (period * 1000) : Nat) : Int) + t)
          period digits = .ok userInput) := by
  refine ⟨offsetList_length window, ?_, fun t => stepFormB_natCast now period t hp, ?_⟩
  · have hbound : ∀ T : Int, (hmac key (encodeStep T)).getLastD 0 % 16 + 3
        < (hmac key (encodeStep T)).length := by
      intro T
      have h16 : (hmac key (encodeStep T)).getLastD 0 % 16 < 16 :=
        Nat.mod_lt _ (by omega)
      have := hlen (encodeStep T)
      omega
    have hgen : ∀ T : Int, ∃ c, V1.generateTOTPWithT hmac b32 secret T period digits = .ok c :=
      fun T => ⟨_, genWithT_ok hmac b32 secret T period digits key hs hp hd hb (hbound T)⟩
    have haux : V1.verifyAux hmac b32 secret userInput now period digits window
        = verifyLoop
            (fun t => V1.generateTOTPWithT hmac b32 secret
              (((now / (period * 1000) : Nat) : Int) + t) period digits)
            userInput (offsetList window) := by
      unfold V1.verifyAux
      rw [hs, hu]
      simp only [Bool.false_eq_true, if_false, if_neg hp, if_neg hd]
    obtain ⟨-, hiff⟩ := verifyLoop_all_ok
      (fun t => V1.generateTOTPWithT hmac b32 secret
        (((now / (period * 1000) : Nat) : Int) + t) period digits)
      userInput (offsetList window) (fun t _ => hgen _)
    rw [v1_verify_true_iff, haux, hiff]
    constructor
    · rintro ⟨t, ht, hok⟩
      obtain ⟨h1, h2⟩ := (mem_offsetList window t).1 ht
      exact ⟨t, h1, h2, hok⟩
    · rintro ⟨t, h1, h2, hok⟩
      exact ⟨t, (mem_offsetList window t).2 ⟨h1, h2⟩, hok⟩
  · have hgen0 : ∀ T : Int, ∃ c, V0.generateTOTPWithT hmac b32 secret T period digits = .ok c :=
      fun T => ⟨_, v0_genWithT_ok hmac b32 secret T period digits key hs hb⟩
    have hfun : (fun t => V0.generateTOTPWithT hmac b32 secret
          (stepFormB (now : Int) period t) period digits)
        = (fun t => V0.generateTOTPWithT hmac b32 secret
          (((now / (period * 1000) : Nat) : Int) + t) period digits) := by
      funext t
      rw [stepFormB_natCast now period t hp]
    have haux0 : V0.verifyAux hmac b32 secret userInput now period digits window
        = verifyLoop
            (fun t => V0.generateTOTPWithT hmac b32 secret
              (((now / (period * 1000) : Nat) : Int) + t) period digits)
            userInput (offsetList window) := by
      unfold V0.verifyAux
      rw [hs, hu]
      simp only [Bool.false_eq_true, if_false]
      rw [hfun]
    obtain ⟨-, hiff0⟩ := verifyLoop_all_ok
      (fun t => V0.generateTOTPWithT hmac b32 secret
        (((now / (period * 1000) : Nat) : Int) + t) period digits)
      userInput (offsetList window) (fun t _ => hgen0 _)
    rw [v0_verify_true_iff, haux0, hiff0]
    constructor
    · rintro ⟨t, ht, hok⟩
      obtain ⟨h1, h2⟩ := (mem_offsetList window t).1 ht
      exact ⟨t, h1, h2, hok⟩
    · rintro ⟨t, h1, h2, hok⟩
      exact ⟨t, (mem_offsetList window t).2 ⟨h1, h2⟩, hok⟩

/-- Witness for C3: a concrete instantiation with stub collaborators,
covering both variants (the step-form conjunct instantiated at the
offset `-1`).  With the constant stub MAC every step produces
`"000000"`, so the candidate `"000000"` verifies and the window facts
are concrete. -/
theorem c3_witness :
    (offsetList 1).length = 2 * 1 + 1 ∧
    (V1.verifyTOTP stubHash20 dec1 "AA" "000000" 1672531200000 30 6 1 = true ↔
      ∃ t : Int, -(1 : Int) ≤ t ∧ t ≤ 1 ∧
        V1.generateTOTPWithT stubHash20 dec1 "AA" (((1672531200000 / (30 * 1000) : Nat) : Int) + t)
          30 6 = .ok "000000") ∧
    stepFormB ((1672531200000 : Nat) : Int) 30 (-1)
      = ((1672531200000 / (30 * 1000) : Nat) : Int) + (-1) ∧
    (V0.verifyTOTP stubHash20 dec1 "AA" "000000" 1672531200000 30 6 1 = true ↔
      ∃ t : Int, -(1 : Int) ≤ t ∧ t ≤ 1 ∧
        V0.generateTOTPWithT stubHash20 dec1 "AA" (((1672531200000 / (30 * 1000) : Nat) : Int) + t)
          30 6 = .ok "000000") :=
  ⟨(c3_window_semantics stubHash20 dec1 "AA" "000000" 1672531200000 30 6 1 [1]
      (by decide) (by decide) (by decide) (by decide) (by decide)
      (fun msg => by simp [stubHash20])).1,
   (c3_window_semantics stubHash20 dec1 "AA" "000000" 1672531200000 30 6 1 [1]
      (by decide) (by decide) (by decide) (by decide) (by decide)
      (fun msg => by simp [stubHash20])).2.1,
   (c3_window_semantics stubHash20 dec1 "AA" "000000" 1672531200000 30 6 1 [1]
      (by decide) (by decide) (by decide) (by decide) (by decide)
      (fun msg => by simp [stubHash20])).2.2.1 (-1),
   (c3_window_semantics stubHash20 dec1 "AA" "000000" 1672531200000 30 6 1 [1]
      (by decide) (by decide) (by decide) (by decide) (by decide)
      (fun msg => by simp [stubHash20])).2.2.2⟩

/-- C4: the code integer is exactly the RFC 4226 dynamic truncation of
the MAC: the big-endian `uint32` read at `offset = (last MAC byte) & 0x0F`,
masked with `0x7FFFFFFF`, reduced modulo `10 ^ digits`; and a successful
`generateTOTPWithT` returns exactly the zero-padded decimal string of
that value. -/
theorem c4_truncation_arithmetic (mac : List Nat) (digits : Nat)
    (hbytes : ∀ b ∈ mac, b < 256) :
    readBE4 mac (mac.getLastD 0 % 16) % 2 ^ 31 % 10 ^ digits
      = beUint32 mac (mac.getLastD 0 % 16) % 2 ^ 31 % 10 ^ digits ∧
    ∀ (hmac : List Nat → List Nat → List Nat)
      (b32 : String → Except String (List Nat)) (secret : String) (T : Int)
      (period : Nat) (key : List Nat),
      secret.isEmpty = false → period ≠ 0 → digits ≠ 0 →
      b32 secret = .ok key → hmac key (encodeStep T) = mac →
      mac.getLastD 0 % 16 + 4 ≤ mac.length →
      V1.generateTOTPWithT hmac b32 secret T period digits
        = .ok (padStart (natToString (beUint32 mac (mac.getLastD 0 % 16) % 2 ^ 31 % 10 ^ digits))
            digits (Char.ofNat 48)) := by
  have hr := readBE4_eq mac (mac.getLastD 0 % 16) hbytes
  refine ⟨by rw [hr], ?_⟩
  intro hmac b32 secret T period key hs hp hd hb hmk hlen
  have hbound : (hmac key (encodeStep T)).getLastD 0 % 16 + 3
      < (hmac key (encodeStep T)).length := by
    rw [hmk]; omega
  rw [genWithT_ok hmac b32 secret T period digits key hs hp hd hb hbound, hmk, hr]

/-- Witness for C4: the RFC 4226 reference MAC
`0x1f8698690e02ca16618550ef7f19da8e945b555a` (offset nibble `0xa`,
truncated word `0x50ef7f19`, six-digit code `872921`). -/
theorem c4_witness :
    readBE4 [31, 134, 152, 105, 14, 2, 202, 22, 97, 133, 80, 239, 127, 25, 218, 142, 148, 91, 85, 90]
        ([31, 134, 152, 105, 14, 2, 202, 22, 97, 133, 80, 239, 127, 25, 218, 142, 148, 91, 85, 90].getLastD 0 % 16)
        % 2 ^ 31 % 10 ^ 6
      = beUint32 [31, 134, 152, 105, 14, 2, 202, 22, 97, 133, 80, 239, 127, 25, 218, 142, 148, 91, 85, 90]
        ([31, 134, 152, 105, 14, 2, 202, 22, 97, 133, 80, 239, 127, 25, 218, 142, 148, 91, 85, 90].getLastD 0 % 16)
        % 2 ^ 31 % 10 ^ 6 ∧
    beUint32 [31, 134, 152, 105, 14, 2, 202, 22, 97, 133, 80, 239, 127, 25, 218, 142, 148, 91, 85, 90]
        ([31, 134, 152, 105, 14, 2, 202, 22, 97, 133, 80, 239, 127, 25, 218, 142, 148, 91, 85, 90].getLastD 0 % 16)
        % 2 ^ 31 % 10 ^ 6 = 872921 :=
  ⟨(c4_truncation_arithmetic
      [31, 134, 152, 105, 14, 2, 202, 22, 97, 133, 80, 239, 127, 25, 218, 142, 148, 91, 85, 90]
      6 (by decide)).1,
   by decide⟩

lemma v1_withTAux_shape (hmac : List Nat → List Nat → List Nat)
    (b32 : String → Except String (List Nat)) (secret : String) (T : Int)
    (period digits : Nat) (c : String)
    (h : V1.generateTOTPWithTAux hmac b32 secret T period digits = .ok c) :
    0 < digits ∧ ∃ n, n < 10 ^ digits ∧ c = padStart (natToString n) digits (Char.ofNat 48) := by
  unfold V1.generateTOTPWithTAux at h
  split at h
  · simp at h
  · split at h
    · simp at h
    · split at h
      · simp at h
      · rename_i hdig
        split at h
        · simp at h
        · simp only [] at h
          split at h
          · injection h with h
            exact ⟨by omega, _, Nat.mod_lt _ (Nat.pos_pow_of_pos _ (by omega)), h.symm⟩
          · simp at h

lemma v1_genAux_shape (hmac : List Nat → List Nat → List Nat)
    (b32 : String → Except String (List Nat)) (secret : String)
    (now period digits : Nat) (c : String)
    (h : V1.generateTOTPAux hmac b32 secret now period digits = .ok c) :
    0 < digits ∧ ∃ n, n < 10 ^ digits ∧ c = padStart (natToString n) digits (Char.ofNat 48) := by
  unfold V1.generateTOTPAux at h
  split at h
  · simp at h
  · split at h
    · simp at h
    · split at h
      · simp at h
      · rename_i hdig
        split at h
        · simp at h
        · simp only [] at h
          split at h
          · injection h with h
            exact ⟨by omega, _, Nat.mod_lt _ (Nat.pos_pow_of_pos _ (by omega)), h.symm⟩
          · simp at h

lemma v0_withTAux_shape (hmac : List Nat → List Nat → List Nat)
    (b32 : String → Except String (List Nat)) (secret : String) (T : Int)
    (period digits : Nat) (c : String)
    (h : V0.generateTOTPWithTAux hmac b32 secret T period digits = .ok c) :
    ∃ n, n < 10 ^ digits ∧ c = padStart (natToString n) digits (Char.ofNat 48) := by
  unfold V0.generateTOTPWithTAux at h
  split at h
  · simp at h
  · split at h
    · simp at h
    · simp only [] at h
      injection h with h
      exact ⟨_, Nat.mod_lt _ (Nat.pos_pow_of_pos _ (by omega)), h.symm⟩

lemma v0_genAux_shape (hmac : List Nat → List Nat → List Nat)
    (b32 : String → Except String (List Nat)) (secret : String)
    (now period digits : Nat) (c : String)
    (h : V0.generateTOTPAux hmac b32 secret now period digits = .ok c) :
    ∃ n, n < 10 ^ digits ∧ c = padStart (natToString n) digits (Char.ofNat 48) := by
  unfold V0.generateTOTPAux at h
  split at h
  · simp at h
  · split at h
    · simp at h
    · simp only [] at h
      injection h with h
      exact ⟨_, Nat.mod_lt _ (Nat.pos_pow_of_pos _ (by omega)), h.symm⟩

/-- C5: every code returned by generation — `generateTOTP` and
`generateTOTPWithT`, in both variants (for `V0`, which skips digit
validation, under the claim's premise that `digits` is positive) — is a
string of exactly `digits` characters, all decimal digits, and is the
left-zero-padded decimal representation of a value in `[0, 10^digits)`. -/
theorem c5_code_format (hmac : List Nat → List Nat → List Nat)
    (b32 : String → Except String (List Nat)) (secret : String) (T : Int)
    (now period digits : Nat) (c : String) :
    (V1.generateTOTP hmac b32 secret now period digits = .ok c →
      c.length = digits ∧ (∀ ch ∈ c.data, ch.isDigit = true) ∧
      ∃ n, n < 10 ^ digits ∧ c = padStart (natToString n) digits (Char.ofNat 48)) ∧
    (V1.generateTOTPWithT hmac b32 secret T period digits = .ok c →
      c.length = digits ∧ (∀ ch ∈ c.data, ch.isDigit = true) ∧
      ∃ n, n < 10 ^ digits ∧ c = padStart (natToString n) digits (Char.ofNat 48)) ∧
    (0 < digits → V0.generateTOTP hmac b32 secret now period digits = .ok c →
      c.length = digits ∧ (∀ ch ∈ c.data, ch.isDigit = true) ∧
      ∃ n, n < 10 ^ digits ∧ c = padStart (natToString n) digits (Char.ofNat 48)) ∧
    (0 < digits → V0.generateTOTPWithT hmac b32 secret T period digits = .ok c →
      c.length = digits ∧ (∀ ch ∈ c.data, ch.isDigit = true) ∧
      ∃ n, n < 10 ^ digits ∧ c = padStart (natToString n) digits (Char.ofNat 48)) := by
  refine ⟨fun h => ?_, fun h => ?_, fun hd h => ?_, fun hd h => ?_⟩
  · obtain ⟨hd, n, hn, rfl⟩ := v1_genAux_shape hmac b32 secret now period digits c
      ((v1_gen_ok_iff hmac b32 secret now period digits c).1 h)
    obtain ⟨h1, h2, h3⟩ := padCode_facts n digits hd hn
    exact ⟨h1, h2, h3⟩
  · obtain ⟨hd, n, hn, rfl⟩ := v1_withTAux_shape hmac b32 secret T period digits c
      ((v1_withT_ok_iff hmac b32 secret T period digits c).1 h)
    obtain ⟨h1, h2, h3⟩ := padCode_facts n digits hd hn
    exact ⟨h1, h2, h3⟩
  · obtain ⟨n, hn, rfl⟩ := v0_genAux_shape hmac b32 secret now period digits c
      ((v0_gen_ok_iff hmac b32 secret now period digits c).1 h)
    obtain ⟨h1, h2, h3⟩ := padCode_facts n digits hd hn
    exact ⟨h1, h2, h3⟩
  · obtain ⟨n, hn, rfl⟩ := v0_withTAux_shape hmac b32 secret T period digits c
      ((v0_withT_ok_iff hmac b32 secret T period digits c).1 h)
    obtain ⟨h1, h2, h3⟩ := padCode_facts n digits hd hn
    exact ⟨h1, h2, h3⟩

/-- Witness for C5: the concrete code generated from the stub MAC has
six digit characters. -/
theorem c5_witness :
    "000000".length = 6 ∧ (∀ ch ∈ "000000".data, ch.isDigit = true) ∧
    ∃ n, n < 10 ^ 6 ∧ "000000" = padStart (natToString n) 6 (Char.ofNat 48) :=
  (c5_code_format stubHash20 dec1 "AA" 0 1672531200000 30 6 "000000").2.1 (by decide)

/-- C6 is false of the code (code_bug): the encoding loop uses the
JavaScript 32-bit operators `& 0xFF` / `>>> 8`, so the 8-byte counter is
the big-endian encoding of `ToUint32(T)` — the low 32 bits of `T` — and
not the true unsigned 64-bit big-endian representation, although the
source comments call the HMAC input a 64-bit integer.  At `T = 2^32` the
encoding collapses to that of `T = 0`, the true 64-bit encodings differ,
and generation cannot distinguish the two steps. -/
theorem c6_encoding_truncates_to_32_bits :
    (∀ T : Int, encodeStep T = be64 (jsToUint32 T)) ∧
    encodeStep ((4294967296 : Nat) : Int) = encodeStep ((0 : Nat) : Int) ∧
    be64 4294967296 ≠ be64 0 ∧
    encodeStep ((4294967296 : Nat) : Int) ≠ be64 4294967296 ∧
    V1.generateTOTPWithT stubHashCat dec1 "AA" ((4294967296 : Nat) : Int) 30 6
      = V1.generateTOTPWithT stubHashCat dec1 "AA" ((0 : Nat) : Int) 30 6 :=
  ⟨encodeStep_eq, by decide, by decide, by decide, by decide⟩

/-- C7 (amended): the `utils.ts` (`V1`) generation entry points
(`generateTOTP` and `generateTOTPWithT`) validate all three inputs — the
raised errors are the invalid-secret, invalid-period and invalid-digits
errors, and the public wrappers rethrow them as the uniform generation
failure.  The older variant validates only the secret — see the
counterexample. -/
theorem c7_validation (hmac : List Nat → List Nat → List Nat)
    (b32 : String → Except String (List Nat)) (secret : String) (T : Int)
    (now period digits : Nat) :
    (secret.isEmpty = true →
      V1.generateTOTPWithTAux hmac b32 secret T period digits
        = .error "Invalid secret: must be a non-empty string" ∧
      V1.generateTOTPAux hmac b32 secret now period digits
        = .error "Invalid secret: must be a non-empty string") ∧
    (secret.isEmpty = false → period = 0 →
      V1.generateTOTPWithTAux hmac b32 secret T period digits
        = .error "Invalid period: must be a positive number" ∧
      V1.generateTOTPAux hmac b32 secret now period digits
        = .error "Invalid period: must be a positive number") ∧
    (secret.isEmpty = false → period ≠ 0 → digits = 0 →
      V1.generateTOTPWithTAux hmac b32 secret T period digits
        = .error "Invalid digits: must be a positive integer" ∧
      V1.generateTOTPAux hmac b32 secret now period digits
        = .error "Invalid digits: must be a positive integer") ∧
    ((secret.isEmpty = true ∨ period = 0 ∨ digits = 0) →
      V1.generateTOTPWithT hmac b32 secret T period digits
        = .error "Failed to generate TOTP" ∧
      V1.generateTOTP hmac b32 secret now period digits
        = .error "Failed to generate TOTP") := by
  have hW : ∀ e, V1.generateTOTPWithTAux hmac b32 secret T period digits = .error e →
      V1.generateTOTPWithT hmac b32 secret T period digits
        = .error "Failed to generate TOTP" := by
    intro e he
    unfold V1.generateTOTPWithT
    rw [he]
  have hG : ∀ e, V1.generateTOTPAux hmac b32 secret now period digits = .error e →
      V1.generateTOTP hmac b32 secret now period digits
        = .error "Failed to generate TOTP" := by
    intro e he
    unfold V1.generateTOTP
    rw [he]
  refine ⟨fun hs => ⟨by simp [V1.generateTOTPWithTAux, hs], by simp [V1.generateTOTPAux, hs]⟩,
    fun hs hp => ⟨by simp [V1.generateTOTPWithTAux, hs, hp], by simp [V1.generateTOTPAux, hs, hp]⟩,
    fun hs hp hd => ⟨by simp [V1.generateTOTPWithTAux, hs, hp, hd],
      by simp [V1.generateTOTPAux, hs, hp, hd]⟩,
    fun hcase => ?_⟩
  have hexW : ∃ e, V1.generateTOTPWithTAux hmac b32 secret T period digits = .error e := by
    by_cases hse : secret.isEmpty = true
    · exact ⟨"Invalid secret: must be a non-empty string", by simp [V1.generateTOTPWithTAux, hse]⟩
    · by_cases hpe : period = 0
      · exact ⟨"Invalid period: must be a positive number", by simp [V1.generateTOTPWithTAux, hse, hpe]⟩
      · have hde : digits = 0 := by tauto
        exact ⟨"Invalid digits: must be a positive integer", by simp [V1.generateTOTPWithTAux, hse, hpe, hde]⟩
  have hexG : ∃ e, V1.generateTOTPAux hmac b32 secret now period digits = .error e := by
    by_cases hse : secret.isEmpty = true
    · exact ⟨"Invalid secret: must be a non-empty string", by simp [V1.generateTOTPAux, hse]⟩
    · by_cases hpe : period = 0
      · exact ⟨"Invalid period: must be a positive number", by simp [V1.generateTOTPAux, hse, hpe]⟩
      · have hde : digits = 0 := by tauto
        exact ⟨"Invalid digits: must be a positive integer", by simp [V1.generateTOTPAux, hse, hpe, hde]⟩
  obtain ⟨e1, he1⟩ := hexW
  obtain ⟨e2, he2⟩ := hexG
  exact ⟨hW e1 he1, hG e2 he2⟩

/-- Witness for C7: the empty secret trips the first validation of both
`V1` entry points. -/
theorem c7_witness :
    V1.generateTOTPWithTAux stubHash20 dec1 "" 0 30 6
      = .error "Invalid secret: must be a non-empty string" ∧
    V1.generateTOTPAux stubHash20 dec1 "" 1672531200000 30 6
      = .error "Invalid secret: must be a non-empty string" :=
  (c7_validation stubHash20 dec1 "" 0 1672531200000 30 6).1 (by decide)

/-- Counterexample for C7 as stated: the older variant's entry points do
not validate `period` or `digits`.  With `digits = 0` (not a positive
integer) `generateTOTPWithT` returns the code `"0"` instead of raising,
and with `period = 0` `generateTOTP` returns a code instead of raising
(in JavaScript, `period = 0` makes `T = Infinity`, whose 32-bit
coercions are all zero, producing the same all-zero counter bytes as the
model's division-by-zero convention). -/
theorem c7_counterexample :
    V0.generateTOTPWithT stubHash20 dec1 "AA" 0 30 0 = .ok "0" ∧
    V0.generateTOTP stubHash20 dec1 "AA" 123456 0 6 = .ok "000000" :=
  ⟨by decide, by decide⟩

/-- C8 (amended): the two window-step computations — form (a)
`floor(now / (period*1000)) + offset` and form (b)
`floor((now + offset*period*1000) / (period*1000))` — are equivalent for
every integer time, every positive period and every integer offset; in
exact integer arithmetic no step boundary can make them differ, so the
claimed non-equivalence does not exist. -/
theorem c8_step_forms_equivalent (now : Int) (period : Nat) (t : Int) (hp : 0 < period) :
    stepFormB now period t = stepFormA now period t :=
  stepForm_eq now period t hp

/-- Witness for C8: a step boundary instant (`now` an exact multiple of
the period in milliseconds). -/
theorem c8_witness : stepFormB 1672531200000 30 (-1) = stepFormA 1672531200000 30 (-1) :=
  c8_step_forms_equivalent 1672531200000 30 (-1) (by decide)

/-- Counterexample for C8 as stated: no time, positive period and offset
make the two forms disagree. -/
theorem c8_counterexample :
    ¬ ∃ (now t : Int) (period : Nat), 0 < period ∧
      stepFormB now period t ≠ stepFormA now period t := by
  rintro ⟨now, t, period, hp, hne⟩
  exact hne (stepForm_eq now period t hp)

/-- C9: generation retains no per-call state — in the embedding
`generateTOTPWithT` is a pure function of the hash primitive, the
decoder and its four arguments, so two calls with identical arguments
(and the same deterministic primitives) return byte-identical codes, in
both variants. -/
theorem c9_determinism (hmac : List Nat → List Nat → List Nat)
    (b32 : String → Except String (List Nat)) (s1 s2 : String) (T1 T2 : Int)
    (p1 p2 d1 d2 : Nat)
    (hs : s1 = s2) (hT : T1 = T2) (hp : p1 = p2) (hd : d1 = d2) :
    V1.generateTOTPWithT hmac b32 s1 T1 p1 d1 = V1.generateTOTPWithT hmac b32 s2 T2 p2 d2 ∧
    V0.generateTOTPWithT hmac b32 s1 T1 p1 d1 = V0.generateTOTPWithT hmac b32 s2 T2 p2 d2 := by
  subst hs hT hp hd
  exact ⟨rfl, rfl⟩

/-- Witness for C9: a concrete repeated call. -/
theorem c9_witness :
    V1.generateTOTPWithT stubHash20 dec1 "AA" 5 30 6
      = V1.generateTOTPWithT stubHash20 dec1 "AA" 5 30 6 ∧
    V0.generateTOTPWithT stubHash20 dec1 "AA" 5 30 6
      = V0.generateTOTPWithT stubHash20 dec1 "AA" 5 30 6 :=
  c9_determinism stubHash20 dec1 "AA" "AA" 5 5 30 30 6 6 rfl rfl rfl rfl

/-- C10: the four high-order bytes of the counter encoding are always
zero, and consequently step values congruent modulo `2^32` generate the
same code (with the same secret, period and digits), in both variants. -/
theorem c10_counter_is_32_bit (T : Int) (T1 T2 : Nat)
    (hmod : T1 % 2 ^ 32 = T2 % 2 ^ 32) :
    (encodeStep T).take 4 = [0, 0, 0, 0] ∧
    ∀ (hmac : List Nat → List Nat → List Nat) (b32 : String → Except String (List Nat))
      (secret : String) (period digits : Nat),
      V1.generateTOTPWithT hmac b32 secret (T1 : Int) period digits
        = V1.generateTOTPWithT hmac b32 secret (T2 : Int) period digits ∧
      V0.generateTOTPWithT hmac b32 secret (T1 : Int) period digits
        = V0.generateTOTPWithT hmac b32 secret (T2 : Int) period digits := by
  have hmod2 : T1 % 4294967296 = T2 % 4294967296 := by
    norm_num at hmod
    exact hmod
  have henc : encodeStep (T1 : Int) = encodeStep (T2 : Int) := by
    rw [encodeStep_eq, encodeStep_eq, jsToUint32_natCast, jsToUint32_natCast, hmod2]
  constructor
  · have h := jsToUint32_lt T
    rw [encodeStep_eq]
    simp only [be64, List.take]
    norm_num
    omega
  · intro hmac b32 secret period digits
    constructor
    · unfold V1.generateTOTPWithT V1.generateTOTPWithTAux
      rw [henc]
    · unfold V0.generateTOTPWithT V0.generateTOTPWithTAux
      rw [henc]

/-- Witness for C10: `T = 2^32` and `T = 0` are congruent modulo `2^32`
and generate the same code under a message-dependent stub hash. -/
theorem c10_witness :
    V1.generateTOTPWithT stubHashCat dec1 "AB" ((4294967296 : Nat) : Int) 30 6
      = V1.generateTOTPWithT stubHashCat dec1 "AB" ((0 : Nat) : Int) 30 6 ∧
    V0.generateTOTPWithT stubHashCat dec1 "AB" ((4294967296 : Nat) : Int) 30 6
      = V0.generateTOTPWithT stubHashCat dec1 "AB" ((0 : Nat) : Int) 30 6 :=
  (c10_counter_is_32_bit 0 4294967296 0 (by norm_num)).2 stubHashCat dec1 "AB" 30 6
